import Mathlib

/-!
Verification of the 2D rectangle field evaluator of `magnet_rs`
(`src/src/magnets/magnet2d/rectangle_field.rs` together with the constants of
`src/src/lib.rs`), as a shallow embedding over the real numbers.

`f64` arithmetic is modelled by `ℝ`; `f64::atan2` is modelled by the
real-valued `atan2` below, which agrees with the IEEE convention at every
point of the real plane (signed zeros have no counterpart in `ℝ`);
`Result<T, Box<dyn Error>>` is modelled by `Except Unit`.
-/

open Real

noncomputable section

/-- Model of the 2D point / vector value (`Point2` of `src/src/utils/points2.rs`, as used by
`rectangle_field.rs`: fields `x`, `y`, `Point2::zero`, and `+=`). -/
@[ext]
structure Point2 where
  x : ℝ
  y : ℝ

/-- Model of `Point2::zero()`. -/
def Point2.zero : Point2 := ⟨0, 0⟩

/-- Componentwise addition (the `+=` accumulation used by the evaluator). -/
def Point2.add (p q : Point2) : Point2 := ⟨p.x + q.x, p.y + q.y⟩

instance : Add Point2 := ⟨Point2.add⟩

@[simp] theorem Point2.add_x (p q : Point2) : (p + q).x = p.x + q.x := rfl

@[simp] theorem Point2.add_y (p q : Point2) : (p + q).y = p.y + q.y := rfl

@[simp] theorem Point2.zero_x : Point2.zero.x = 0 := rfl

@[simp] theorem Point2.zero_y : Point2.zero.y = 0 := rfl

/-- From `src/src/lib.rs`: `pub const FP_CUTOFF: f64 = 1e-6;`. -/
def FP_CUTOFF : ℝ := 1e-6

/-- From `src/src/lib.rs`: `pub const ERR_CUTOFF: f64 = 1e-12;`. -/
def ERR_CUTOFF : ℝ := 1e-12

/-- From `src/src/lib.rs`: `pub const M2_PI: f64 = PI * 2.0;`. -/
def M2_PI : ℝ := π * 2

/-- From `src/src/lib.rs`: `pub const M4_PI: f64 = PI * 4.0;`. -/
def M4_PI : ℝ := π * 4

/-- From `src/src/lib.rs`: `pub const I_2PI: f64 = 1.0 / M2_PI;`. -/
def I_2PI : ℝ := 1 / M2_PI

/-- From `src/src/lib.rs`: `pub const I_4PI: f64 = 1.0 / M4_PI;`. -/
def I_4PI : ℝ := 1 / M4_PI

/-- Real-valued model of `f64::atan2`: `atan2 y x` is the angle of the point
`(x, y)`, in `(-π, π]`, with the IEEE conventions `atan2 y 0 = ±π/2` for
`y ≷ 0`, `atan2 0 x = π` for `x < 0`, and `atan2 0 0 = 0`. -/
def atan2 (y x : ℝ) : ℝ :=
  if 0 < x then arctan (y / x)
  else if x < 0 then (if 0 ≤ y then arctan (y / x) + π else arctan (y / x) - π)
  else (if 0 < y then π / 2 else if y < 0 then -(π / 2) else 0)

theorem atan2_of_pos {x : ℝ} (hx : 0 < x) (y : ℝ) : atan2 y x = arctan (y / x) :=
  if_pos hx

theorem atan2_pos_zero {y : ℝ} (hy : 0 < y) : atan2 y 0 = π / 2 := by
  unfold atan2
  rw [if_neg (lt_irrefl 0), if_neg (lt_irrefl 0), if_pos hy]

theorem atan2_neg_zero {y : ℝ} (hy : y < 0) : atan2 y 0 = -(π / 2) := by
  unfold atan2
  rw [if_neg (lt_irrefl 0), if_neg (lt_irrefl 0), if_neg (asymm hy), if_pos hy]

theorem atan2_zero_neg {x : ℝ} (hx : x < 0) : atan2 0 x = π := by
  unfold atan2
  rw [if_neg (asymm hx), if_pos hx, if_pos le_rfl, zero_div, arctan_zero, zero_add]

/-- Oddness of `atan2` in its first argument away from the branch cut
(first argument zero over a negative second argument). -/
theorem atan2_neg_fst {y x : ℝ} (h : ¬(y = 0 ∧ x < 0)) :
    atan2 (-y) x = -atan2 y x := by
  rcases lt_trichotomy 0 x with hx | hx | hx
  · rw [atan2_of_pos hx, atan2_of_pos hx, neg_div, arctan_neg]
  · subst hx
    rcases lt_trichotomy 0 y with hy | hy | hy
    · rw [atan2_pos_zero hy, atan2_neg_zero (neg_neg_of_pos hy)]
    · subst hy
      have h0 : atan2 0 (0 : ℝ) = 0 := by
        unfold atan2
        rw [if_neg (lt_irrefl 0), if_neg (lt_irrefl 0), if_neg (lt_irrefl 0),
          if_neg (lt_irrefl 0)]
      rw [neg_zero, h0, neg_zero]
    · rw [atan2_neg_zero hy, atan2_pos_zero (neg_pos.mpr hy), neg_neg]
  · have hy : y ≠ 0 := fun h0 => h ⟨h0, hx⟩
    unfold atan2
    rw [if_neg (asymm hx), if_neg (asymm hx), if_pos hx, if_pos hx]
    rcases lt_trichotomy 0 y with hy1 | hy1 | hy1
    · rw [if_pos hy1.le, if_neg (not_le.mpr (neg_neg_of_pos hy1)), neg_div,
        arctan_neg]
      ring
    · exact absurd hy1.symm hy
    · rw [if_neg (not_le.mpr hy1), if_pos (neg_nonneg.mpr hy1.le), neg_div,
        arctan_neg]
      ring

/-- Magnet descriptor for a 2D rectangle. Its struct definition is not under
`src/`; the fields are the ones `rectangle_field.rs` reads (`a`, `b`, `jx`,
`jy`, `jr`) plus the constructor parameters the spec lists (center, rotation
tag, remanence `jr`, magnetization angle `theta` in degrees). -/
structure Rectangle where
  a : ℝ
  b : ℝ
  center : Point2
  alpha : ℝ
  jr : ℝ
  theta : ℝ
  jx : ℝ
  jy : ℝ

/-- Modelled from the spec: `Rectangle::new` is not under `src/` (only its
test callers are). Spec §4.2/§6: the constructor takes width, height, center,
a rotation tag, magnetization magnitude `jr` and angle `theta` in degrees;
it divides full width and height by 2 to obtain the half-extents `a`, `b`,
precomputes `jx = jr·cos θ`, `jy = jr·sin θ`, and fails if width or
height ≤ 0. -/
def Rectangle.new (width height : ℝ) (center : Point2) (alpha : ℝ)
    (jr theta : ℝ) : Option Rectangle :=
  if width ≤ 0 ∨ height ≤ 0 then none
  else some
    { a := width / 2
      b := height / 2
      center := center
      alpha := alpha
      jr := jr
      theta := theta
      jx := jr * Real.cos (theta * π / 180)
      jy := jr * Real.sin (theta * π / 180) }

/-- Body of `field_in_x_for_x_mag` (`rectangle_field.rs`), the value inside
its `Ok(..)`. -/
def bxx_value (x y a b j : ℝ) : ℝ :=
  let b_plus_y := b + y
  let b_minus_y := b - y
  let b_plus_y_sq := b_plus_y ^ 2
  let b_minus_y_sq := b_minus_y ^ 2
  let x_sq := x ^ 2
  let a_sq := a ^ 2
  let a2 := 2 * a
  let xsq_minus_a_sq := x_sq - a_sq
  let top_1 := a2 * b_plus_y
  let bottom_1 := xsq_minus_a_sq + b_plus_y_sq
  let top_2 := a2 * (b - y)
  let bottom_2 := xsq_minus_a_sq + b_minus_y_sq
  j * I_2PI * (atan2 top_1 bottom_1 + atan2 top_2 bottom_2)

/-- Kernel `fn field_in_x_for_x_mag(x, y, a, b, j) -> Result<f64, _>`: always
`Ok` of the closed form. -/
def field_in_x_for_x_mag (x y a b j : ℝ) : Except Unit ℝ :=
  Except.ok (bxx_value x y a b j)

/-- Subterm `top_1 = x_minus_a_sq + y_minus_b_sq` of `field_in_y_for_x_mag`. -/
def byx_top_1 (x y a b : ℝ) : ℝ := (x - a) ^ 2 + (y - b) ^ 2

/-- Subterm `bottom_1 = x_plus_a_sq + y_minus_b_sq` of `field_in_y_for_x_mag`. -/
def byx_bottom_1 (x y a b : ℝ) : ℝ := (x + a) ^ 2 + (y - b) ^ 2

/-- Subterm `top_2 = x_minus_a_sq + y_plus_b_sq` of `field_in_y_for_x_mag`. -/
def byx_top_2 (x y a b : ℝ) : ℝ := (x - a) ^ 2 + (y + b) ^ 2

/-- Subterm `bottom_2 = x_plus_a_sq + y_plus_b_sq` of `field_in_y_for_x_mag`. -/
def byx_bottom_2 (x y a b : ℝ) : ℝ := (x + a) ^ 2 + (y + b) ^ 2

/-- Body of `field_in_y_for_x_mag` (`rectangle_field.rs`), the value inside
its `Ok(..)`. -/
def byx_value (x y a b j : ℝ) : ℝ :=
  -j * I_4PI * (Real.log (byx_top_1 x y a b / byx_bottom_1 x y a b)
    - Real.log (byx_top_2 x y a b / byx_bottom_2 x y a b))

/-- Kernel `fn field_in_y_for_x_mag(x, y, a, b, j) -> Result<f64, _>`: always
`Ok` of the closed form. -/
def field_in_y_for_x_mag (x y a b j : ℝ) : Except Unit ℝ :=
  Except.ok (byx_value x y a b j)

/-- Body of `field_in_x_for_y_mag` (`rectangle_field.rs`), the value inside
its `Ok(..)`. -/
def bxy_value (x y a b j : ℝ) : ℝ :=
  let x_plus_a_sq := (x + a) ^ 2
  let x_minus_a_sq := (x - a) ^ 2
  let y_plus_b_sq := (y + b) ^ 2
  let y_mins_b_sq := (y - b) ^ 2
  let top_1 := x_plus_a_sq + y_mins_b_sq
  let bottom_1 := x_plus_a_sq + y_plus_b_sq
  let top_2 := x_minus_a_sq + y_mins_b_sq
  let bottom_2 := x_minus_a_sq + y_plus_b_sq
  j * I_4PI * (Real.log (top_1 / bottom_1) - Real.log (top_2 / bottom_2))

/-- Kernel `fn field_in_x_for_y_mag(x, y, a, b, j) -> Result<f64, _>`: always
`Ok` of the closed form. -/
def field_in_x_for_y_mag (x y a b j : ℝ) : Except Unit ℝ :=
  Except.ok (bxy_value x y a b j)

/-- Body of `field_in_y_for_y_mag` (`rectangle_field.rs`), the value inside
its `Ok(..)`. -/
def byy_value (x y a b j : ℝ) : ℝ :=
  let x_plus_a := x + a
  let x_minus_a := x - a
  let x_plus_a_sq := x_plus_a ^ 2
  let x_minus_a_sq := x_minus_a ^ 2
  let y_sq := y ^ 2
  let b_sq := b ^ 2
  let b2 := 2 * b
  let top_1 := b2 * x_plus_a
  let bottom_1 := x_plus_a_sq + y_sq - b_sq
  let top_2 := b2 * x_minus_a
  let bottom_2 := x_minus_a_sq + y_sq - b_sq
  j * I_2PI * (atan2 top_1 bottom_1 - atan2 top_2 bottom_2)

/-- Kernel `fn field_in_y_for_y_mag(x, y, a, b, j) -> Result<f64, _>`: always
`Ok` of the closed form. -/
def field_in_y_for_y_mag (x y a b j : ℝ) : Except Unit ℝ :=
  Except.ok (byy_value x y a b j)

/-- Function `fn magnetic_field_x(magnet, point)`: the field vector at a point due to a
rectangle magnetised in x; the two kernel results are combined with `?`. -/
def magnetic_field_x (magnet : Rectangle) (point : Point2) :
    Except Unit Point2 := do
  let fx ← field_in_x_for_x_mag point.x point.y magnet.a magnet.b magnet.jx
  let fy ← field_in_y_for_x_mag point.x point.y magnet.a magnet.b magnet.jx
  Except.ok (⟨fx, fy⟩ : Point2)

/-- Function `fn magnetic_field_y(magnet, point)`: the field vector at a point due to a
rectangle magnetised in y; the two kernel results are combined with `?`. -/
def magnetic_field_y (magnet : Rectangle) (point : Point2) :
    Except Unit Point2 := do
  let fx ← field_in_x_for_y_mag point.x point.y magnet.a magnet.b magnet.jy
  let fy ← field_in_y_for_y_mag point.x point.y magnet.a magnet.b magnet.jy
  Except.ok (⟨fx, fy⟩ : Point2)

/-- First summand accumulated by `get_field_rectangle`: the x-magnetization
contribution, guarded by the `|jx/jr| > FP_CUTOFF` test, with the `Err`
branch substituting the zero vector. -/
def x_axis_contribution (magnet : Rectangle) (point : Point2) : Point2 :=
  if |magnet.jx / magnet.jr| > FP_CUTOFF then
    match magnetic_field_x magnet point with
    | Except.ok value => value
    | Except.error _ => ⟨0, 0⟩
  else ⟨0, 0⟩

/-- Second summand accumulated by `get_field_rectangle`: the y-magnetization
contribution, guarded by the `|jy/jr| > FP_CUTOFF` test, with the `Err`
branch substituting the zero vector. -/
def y_axis_contribution (magnet : Rectangle) (point : Point2) : Point2 :=
  if |magnet.jy / magnet.jr| > FP_CUTOFF then
    match magnetic_field_y magnet point with
    | Except.ok value => value
    | Except.error _ => ⟨0, 0⟩
  else ⟨0, 0⟩

/-- Evaluator `pub fn get_field_rectangle(magnet, point)`: starts from `Point2::zero()`,
`+=`s the two guarded axis contributions, and returns `Ok(field)`. The point
is handed to the kernels unchanged (no center subtraction appears in the
source). -/
def get_field_rectangle (magnet : Rectangle) (point : Point2) :
    Except Unit Point2 :=
  Except.ok (Point2.zero + x_axis_contribution magnet point
    + y_axis_contribution magnet point)

theorem x_axis_contribution_eq (m : Rectangle) (p : Point2) :
    x_axis_contribution m p =
      if |m.jx / m.jr| > FP_CUTOFF then
        Point2.mk (bxx_value p.x p.y m.a m.b m.jx)
          (byx_value p.x p.y m.a m.b m.jx)
      else ⟨0, 0⟩ := rfl

theorem y_axis_contribution_eq (m : Rectangle) (p : Point2) :
    y_axis_contribution m p =
      if |m.jy / m.jr| > FP_CUTOFF then
        Point2.mk (bxy_value p.x p.y m.a m.b m.jy)
          (byy_value p.x p.y m.a m.b m.jy)
      else ⟨0, 0⟩ := rfl

theorem bxx_value_eq (x y a b j : ℝ) :
    bxx_value x y a b j =
      j * I_2PI * (atan2 (2 * a * (b + y)) (x ^ 2 - a ^ 2 + (b + y) ^ 2)
        + atan2 (2 * a * (b - y)) (x ^ 2 - a ^ 2 + (b - y) ^ 2)) := rfl

theorem byy_value_eq (x y a b j : ℝ) :
    byy_value x y a b j =
      j * I_2PI * (atan2 (2 * b * (x + a)) ((x + a) ^ 2 + y ^ 2 - b ^ 2)
        - atan2 (2 * b * (x - a)) ((x - a) ^ 2 + y ^ 2 - b ^ 2)) := rfl

theorem bxx_origin_val : bxx_value 0 0 (1 / 2) (1 / 2) 1 = 1 / 2 := by
  rw [bxx_value_eq]
  norm_num
  rw [atan2_pos_zero (by norm_num : (0 : ℝ) < 1 / 2)]
  rw [I_2PI, M2_PI]
  have hπ := Real.pi_ne_zero
  field_simp

theorem byx_origin_val : byx_value 0 0 (1 / 2) (1 / 2) 1 = 0 := by
  unfold byx_value byx_top_1 byx_bottom_1 byx_top_2 byx_bottom_2
  norm_num

/-- C4: whenever `|jy/jr|` does not exceed `FP_CUTOFF = 1e-6`, the
y-magnetization contribution accumulated into the total field is exactly the
zero vector, and symmetrically for `|jx/jr|` and the x-magnetization
contribution. -/
theorem c4_cutoff_exact_zero (m : Rectangle) (p : Point2) :
    (|m.jy / m.jr| ≤ FP_CUTOFF → y_axis_contribution m p = Point2.zero) ∧
    (|m.jx / m.jr| ≤ FP_CUTOFF → x_axis_contribution m p = Point2.zero) := by
  constructor
  · intro h
    rw [y_axis_contribution_eq, if_neg (not_lt.mpr h)]
    rfl
  · intro h
    rw [x_axis_contribution_eq, if_neg (not_lt.mpr h)]
    rfl

theorem c4_witness :
    |(0 : ℝ) / 1| ≤ FP_CUTOFF ∧
      y_axis_contribution ⟨1 / 2, 1 / 2, ⟨0, 0⟩, 0, 1, 0, 1, 0⟩ ⟨3, 4⟩ =
        Point2.zero :=
  ⟨by norm_num [FP_CUTOFF],
    (c4_cutoff_exact_zero ⟨1 / 2, 1 / 2, ⟨0, 0⟩, 0, 1, 0, 1, 0⟩ ⟨3, 4⟩).1
      (by norm_num [FP_CUTOFF])⟩

/-- C5: `get_field_rectangle` returns `Ok` for every magnet descriptor and
every observation point; it never reports a failure to its caller. -/
theorem c5_always_ok (m : Rectangle) (p : Point2) :
    ∃ f, get_field_rectangle m p = Except.ok f := ⟨_, rfl⟩

/-- C8: constructing a magnet descriptor fails (returns `none`) whenever the
supplied width or height is ≤ 0. -/
theorem c8_invalid_geometry (width height : ℝ) (center : Point2)
    (alpha jr theta : ℝ) (h : width ≤ 0 ∨ height ≤ 0) :
    Rectangle.new width height center alpha jr theta = none := by
  unfold Rectangle.new
  exact if_pos h

theorem c8_witness : Rectangle.new 0 1 ⟨0, 0⟩ 0 1 0 = none :=
  c8_invalid_geometry 0 1 ⟨0, 0⟩ 0 1 0 (Or.inl le_rfl)

/-- C9: each of the four axis-kernel functions returns `Ok` for every input,
so the `Err` branches of `get_field_rectangle` are unreachable and no kernel
result is ever replaced by the zero fallback. -/
theorem c9_kernels_always_ok (x y a b j : ℝ) :
    (∃ v, field_in_x_for_x_mag x y a b j = Except.ok v) ∧
    (∃ v, field_in_y_for_x_mag x y a b j = Except.ok v) ∧
    (∃ v, field_in_x_for_y_mag x y a b j = Except.ok v) ∧
    (∃ v, field_in_y_for_y_mag x y a b j = Except.ok v) :=
  ⟨⟨_, rfl⟩, ⟨_, rfl⟩, ⟨_, rfl⟩, ⟨_, rfl⟩⟩

/-- C10: a magnet descriptor with `jr = 0` (hence, as built by the
constructor, `jx = jy = 0`) yields `Ok` of the exact zero vector at every
point: the cutoff comparisons fail (the `f64` quotients are `NaN`, modelled
over `ℝ` by `0 / 0 = 0`) and both axis contributions are skipped. -/
theorem c10_zero_remanence (m : Rectangle) (p : Point2) (hr : m.jr = 0)
    (hx : m.jx = 0) (hy : m.jy = 0) :
    get_field_rectangle m p = Except.ok Point2.zero := by
  unfold get_field_rectangle
  rw [x_axis_contribution_eq, y_axis_contribution_eq, hr, hx, hy]
  rw [if_neg (by norm_num [FP_CUTOFF]), if_neg (by norm_num [FP_CUTOFF])]
  refine congrArg Except.ok ?_
  ext <;> simp [Point2.zero]

theorem c10_witness :
    get_field_rectangle ⟨1 / 2, 1 / 2, ⟨0, 0⟩, 0, 0, 0, 0, 0⟩ ⟨3, 4⟩ =
      Except.ok Point2.zero :=
  c10_zero_remanence ⟨1 / 2, 1 / 2, ⟨0, 0⟩, 0, 0, 0, 0, 0⟩ ⟨3, 4⟩ rfl rfl rfl

/-- C1 (amended): `get_field_rectangle` performs no local-coordinate
transform: it hands the observation point to the kernels unchanged, so the
field is independent of the magnet center — two magnets identical except
for their center give equal fields at the *same* point. -/
theorem c1_center_ignored (m1 m2 : Rectangle) (p : Point2)
    (ha : m1.a = m2.a) (hb : m1.b = m2.b) (hjr : m1.jr = m2.jr)
    (hjx : m1.jx = m2.jx) (hjy : m1.jy = m2.jy) :
    get_field_rectangle m1 p = get_field_rectangle m2 p := by
  unfold get_field_rectangle
  rw [x_axis_contribution_eq, x_axis_contribution_eq, y_axis_contribution_eq,
    y_axis_contribution_eq, ha, hb, hjr, hjx, hjy]

theorem c1_witness :
    get_field_rectangle ⟨1 / 2, 1 / 2, ⟨0, 0⟩, 0, 1, 0, 1, 0⟩ ⟨3, 4⟩ =
      get_field_rectangle ⟨1 / 2, 1 / 2, ⟨5, 7⟩, 0, 1, 0, 1, 0⟩ ⟨3, 4⟩ :=
  c1_center_ignored ⟨1 / 2, 1 / 2, ⟨0, 0⟩, 0, 1, 0, 1, 0⟩
    ⟨1 / 2, 1 / 2, ⟨5, 7⟩, 0, 1, 0, 1, 0⟩ ⟨3, 4⟩ rfl rfl rfl rfl rfl

/-- C3: the magnet built by `Rectangle::new(1.0, 1.0, (0., -0.5), 0, 1.0, 0.0)`
(x-magnetized, `jr = 1`) gives field `(0.5, 0.0)` at the origin, each
component within `ERR_CUTOFF = 1e-12` (in fact exactly). -/
theorem c3_symmetry_field_in_x :
    ∃ m f, Rectangle.new 1 1 ⟨0, -(1 / 2)⟩ 0 1 0 = some m ∧
      get_field_rectangle m ⟨0, 0⟩ = Except.ok f ∧
      |f.x - 1 / 2| ≤ ERR_CUTOFF ∧ |f.y - 0| ≤ ERR_CUTOFF := by
  refine ⟨⟨1 / 2, 1 / 2, ⟨0, -(1 / 2)⟩, 0, 1, 0, 1, 0⟩, ⟨1 / 2, 0⟩, ?_, ?_, ?_, ?_⟩
  · unfold Rectangle.new
    rw [if_neg (by norm_num)]
    norm_num [Rectangle.mk.injEq]
  · unfold get_field_rectangle
    rw [x_axis_contribution_eq, y_axis_contribution_eq]
    rw [if_pos (by norm_num [FP_CUTOFF]), if_neg (by norm_num [FP_CUTOFF])]
    refine congrArg Except.ok ?_
    show (⟨0 + bxx_value 0 0 (1 / 2) (1 / 2) 1 + 0,
      0 + byx_value 0 0 (1 / 2) (1 / 2) 1 + 0⟩ : Point2) = ⟨1 / 2, 0⟩
    rw [bxx_origin_val, byx_origin_val]
    norm_num
  · norm_num [ERR_CUTOFF]
  · norm_num [ERR_CUTOFF]

/-- C2 (refuting evidence): at the corner `(-a, b)` of the rectangle of
half-extents `a = b = 1/2` with `jx = jr = 1`, the first logarithm argument
of `field_in_y_for_x_mag` has an exactly zero denominator and a positive
numerator, the cutoff test on `|jx/jr|` passes, yet the kernel still returns
`Ok` of the raw closed form: in `f64` the quotient is `+Inf`, its `ln` is
`+Inf`, and `get_field_rectangle` hands the caller a non-finite y-component
(no guard ever intercepts it). -/
theorem c2_corner_singularity :
    byx_bottom_1 (-(1 / 2)) (1 / 2) (1 / 2) (1 / 2) = 0 ∧
    0 < byx_top_1 (-(1 / 2)) (1 / 2) (1 / 2) (1 / 2) ∧
    |(1 : ℝ) / 1| > FP_CUTOFF ∧
    field_in_y_for_x_mag (-(1 / 2)) (1 / 2) (1 / 2) (1 / 2) 1 =
      Except.ok (byx_value (-(1 / 2)) (1 / 2) (1 / 2) (1 / 2) 1) := by
  refine ⟨?_, ?_, ?_, rfl⟩
  · unfold byx_bottom_1
    norm_num
  · unfold byx_top_1
    norm_num
  · norm_num [FP_CUTOFF]

theorem bxx_shifted_val :
    bxx_value 0 (-(1 / 2)) (1 / 2) (1 / 2) 1 = I_2PI * (π + arctan (4 / 3)) := by
  rw [bxx_value_eq]
  norm_num
  rw [atan2_zero_neg (by norm_num : (-(1 / 4) : ℝ) < 0),
    atan2_of_pos (by norm_num : (0 : ℝ) < 3 / 4) 1]
  norm_num

theorem byx_shifted_val : byx_value 0 (-(1 / 2)) (1 / 2) (1 / 2) 1 = 0 := by
  unfold byx_value byx_top_1 byx_bottom_1 byx_top_2 byx_bottom_2
  norm_num

/-- C1 counterexample: the magnets below are identical except for their
center (`(0, -1/2)` versus `(0, 0)`), and the two observation points
correspond under the translation between the centers; the claim predicts
equal fields there, but the code returns `((π + arctan (4/3))/(2π), 0)` for
the first and `(1/2, 0)` for the second. -/
theorem c1_counterexample :
    get_field_rectangle ⟨1 / 2, 1 / 2, ⟨0, -(1 / 2)⟩, 0, 1, 0, 1, 0⟩ ⟨0, -(1 / 2)⟩ ≠
      get_field_rectangle ⟨1 / 2, 1 / 2, ⟨0, 0⟩, 0, 1, 0, 1, 0⟩ ⟨0, 0⟩ := by
  have hL : get_field_rectangle ⟨1 / 2, 1 / 2, ⟨0, -(1 / 2)⟩, 0, 1, 0, 1, 0⟩
      ⟨0, -(1 / 2)⟩ = Except.ok ⟨I_2PI * (π + arctan (4 / 3)), 0⟩ := by
    unfold get_field_rectangle
    rw [x_axis_contribution_eq, y_axis_contribution_eq]
    rw [if_pos (by norm_num [FP_CUTOFF]), if_neg (by norm_num [FP_CUTOFF])]
    refine congrArg Except.ok ?_
    show (⟨0 + bxx_value 0 (-(1 / 2)) (1 / 2) (1 / 2) 1 + 0,
      0 + byx_value 0 (-(1 / 2)) (1 / 2) (1 / 2) 1 + 0⟩ : Point2) =
        ⟨I_2PI * (π + arctan (4 / 3)), 0⟩
    rw [bxx_shifted_val, byx_shifted_val]
    norm_num
  have hR : get_field_rectangle ⟨1 / 2, 1 / 2, ⟨0, 0⟩, 0, 1, 0, 1, 0⟩ ⟨0, 0⟩ =
      Except.ok ⟨1 / 2, 0⟩ := by
    unfold get_field_rectangle
    rw [x_axis_contribution_eq, y_axis_contribution_eq]
    rw [if_pos (by norm_num [FP_CUTOFF]), if_neg (by norm_num [FP_CUTOFF])]
    refine congrArg Except.ok ?_
    show (⟨0 + bxx_value 0 0 (1 / 2) (1 / 2) 1 + 0,
      0 + byx_value 0 0 (1 / 2) (1 / 2) 1 + 0⟩ : Point2) = ⟨1 / 2, 0⟩
    rw [bxx_origin_val, byx_origin_val]
    norm_num
  rw [hL, hR]
  simp only [ne_eq, Except.ok.injEq, Point2.mk.injEq, not_and]
  intro hx
  exfalso
  have hpos : (0 : ℝ) < π * 2 := by positivity
  rw [I_2PI, M2_PI] at hx
  have harc : arctan (4 / 3) = 0 := by
    have h2 : 1 / (π * 2) * (π + arctan (4 / 3)) * (π * 2) =
        1 / 2 * (π * 2) := by rw [hx]
    rw [one_div, inv_mul_eq_div, div_mul_cancel₀] at h2
    · linarith
    · positivity
  have h4 : (4 / 3 : ℝ) = 0 := Real.arctan_eq_zero_iff.mp harc
  norm_num at h4

/-- C6 counterexample: at `(x, y, a, b, j) = (1, 0, 1, 1, 1)` the second
`atan2` of each side sits on the branch cut (`atan2 0 (-1) = π`), where the
claimed mirror identity fails: the sides are `(arctan (4/3) - π)/(2π)` and
`(arctan (4/3) + π)/(2π)`. -/
theorem c6_counterexample :
    field_in_y_for_y_mag 1 0 1 1 1 ≠ field_in_x_for_x_mag 0 1 1 1 1 := by
  unfold field_in_y_for_y_mag field_in_x_for_x_mag
  simp only [ne_eq, Except.ok.injEq]
  rw [byy_value_eq, bxx_value_eq]
  norm_num
  rw [atan2_zero_neg (by norm_num : (-1 : ℝ) < 0)]
  have hπ := Real.pi_pos
  have hI : (0 : ℝ) < I_2PI := by
    rw [I_2PI, M2_PI]
    positivity
  constructor
  · intro h2
    linarith
  · intro h0
    linarith

/-- C6 (amended): `field_in_y_for_y_mag x y a b j` equals
`field_in_x_for_x_mag y x b a j` whenever the second `atan2` is off the
branch cut, i.e. unless its numerator `2b(x-a)` is zero while its denominator
`(x-a)² + y² - b²` is negative. -/
theorem c6_mirror_identity (x y a b j : ℝ)
    (h : ¬(2 * b * (x - a) = 0 ∧ (x - a) ^ 2 + y ^ 2 - b ^ 2 < 0)) :
    field_in_y_for_y_mag x y a b j = field_in_x_for_x_mag y x b a j := by
  unfold field_in_y_for_y_mag field_in_x_for_x_mag
  refine congrArg Except.ok ?_
  rw [byy_value_eq, bxx_value_eq]
  have e1 : 2 * b * (a + x) = 2 * b * (x + a) := by ring
  have e2 : y ^ 2 - b ^ 2 + (a + x) ^ 2 = (x + a) ^ 2 + y ^ 2 - b ^ 2 := by
    ring
  have e3 : 2 * b * (a - x) = -(2 * b * (x - a)) := by ring
  have e4 : y ^ 2 - b ^ 2 + (a - x) ^ 2 = (x - a) ^ 2 + y ^ 2 - b ^ 2 := by
    ring
  rw [e1, e2, e3, e4, atan2_neg_fst h]
  ring

theorem c6_witness :
    ¬(2 * 1 * ((0 : ℝ) - 1) = 0 ∧ ((0 : ℝ) - 1) ^ 2 + 0 ^ 2 - 1 ^ 2 < 0) ∧
      field_in_y_for_y_mag 0 0 1 1 1 = field_in_x_for_x_mag 0 0 1 1 1 :=
  ⟨by norm_num, c6_mirror_identity 0 0 1 1 1 (by norm_num)⟩

theorem bxy_value_eq (x y a b j : ℝ) :
    bxy_value x y a b j =
      j * I_4PI *
        (Real.log (((x + a) ^ 2 + (y - b) ^ 2) / ((x + a) ^ 2 + (y + b) ^ 2))
          - Real.log
            (((x - a) ^ 2 + (y - b) ^ 2) / ((x - a) ^ 2 + (y + b) ^ 2))) := rfl

theorem bxx_value_smul (x y a b k j : ℝ) :
    bxx_value x y a b (k * j) = k * bxx_value x y a b j := by
  rw [bxx_value_eq, bxx_value_eq]
  ring

theorem byx_value_smul (x y a b k j : ℝ) :
    byx_value x y a b (k * j) = k * byx_value x y a b j := by
  unfold byx_value
  ring

theorem bxy_value_smul (x y a b k j : ℝ) :
    bxy_value x y a b (k * j) = k * bxy_value x y a b j := by
  rw [bxy_value_eq, bxy_value_eq]
  ring

theorem byy_value_smul (x y a b k j : ℝ) :
    byy_value x y a b (k * j) = k * byy_value x y a b j := by
  rw [byy_value_eq, byy_value_eq]
  ring

theorem x_axis_contribution_smul (m : Rectangle) (p : Point2) (k : ℝ) :
    x_axis_contribution
        { m with jr := k * m.jr, jx := k * m.jx, jy := k * m.jy } p =
      ⟨k * (x_axis_contribution m p).x, k * (x_axis_contribution m p).y⟩ := by
  rcases eq_or_ne k 0 with hk | hk
  · subst hk
    simp only [x_axis_contribution_eq, zero_mul, zero_div, abs_zero]
    rw [if_neg (by norm_num [FP_CUTOFF])]
  · simp only [x_axis_contribution_eq, mul_div_mul_left _ _ hk]
    by_cases hc : |m.jx / m.jr| > FP_CUTOFF
    · rw [if_pos hc, if_pos hc]
      ext
      · exact bxx_value_smul p.x p.y m.a m.b k m.jx
      · exact byx_value_smul p.x p.y m.a m.b k m.jx
    · rw [if_neg hc, if_neg hc]
      ext <;> simp

theorem y_axis_contribution_smul (m : Rectangle) (p : Point2) (k : ℝ) :
    y_axis_contribution
        { m with jr := k * m.jr, jx := k * m.jx, jy := k * m.jy } p =
      ⟨k * (y_axis_contribution m p).x, k * (y_axis_contribution m p).y⟩ := by
  rcases eq_or_ne k 0 with hk | hk
  · subst hk
    simp only [y_axis_contribution_eq, zero_mul, zero_div, abs_zero]
    rw [if_neg (by norm_num [FP_CUTOFF])]
  · simp only [y_axis_contribution_eq, mul_div_mul_left _ _ hk]
    by_cases hc : |m.jy / m.jr| > FP_CUTOFF
    · rw [if_pos hc, if_pos hc]
      ext
      · exact bxy_value_smul p.x p.y m.a m.b k m.jy
      · exact byy_value_smul p.x p.y m.a m.b k m.jy
    · rw [if_neg hc, if_neg hc]
      ext <;> simp

/-- C7: scaling the magnetization magnitude `jr` by any constant `k` (angle
unchanged, hence `jx` and `jy` scaled by `k`) scales both components of the
field returned by `get_field_rectangle` by exactly `k`, at every point. -/
theorem c7_linearity (m : Rectangle) (p : Point2) (k : ℝ) :
    ∃ f f', get_field_rectangle m p = Except.ok f ∧
      get_field_rectangle
          { m with jr := k * m.jr, jx := k * m.jx, jy := k * m.jy } p =
        Except.ok f' ∧
      f'.x = k * f.x ∧ f'.y = k * f.y := by
  refine ⟨_, _, rfl, rfl, ?_, ?_⟩
  · show (Point2.zero
        + x_axis_contribution
            { m with jr := k * m.jr, jx := k * m.jx, jy := k * m.jy } p
        + y_axis_contribution
            { m with jr := k * m.jr, jx := k * m.jx, jy := k * m.jy } p).x = _
    rw [x_axis_contribution_smul, y_axis_contribution_smul]
    simp only [Point2.add_x, Point2.zero_x]
    ring
  · show (Point2.zero
        + x_axis_contribution
            { m with jr := k * m.jr, jx := k * m.jx, jy := k * m.jy } p
        + y_axis_contribution
            { m with jr := k * m.jr, jx := k * m.jx, jy := k * m.jy } p).y = _
    rw [x_axis_contribution_smul, y_axis_contribution_smul]
    simp only [Point2.add_y, Point2.zero_y]
    ring

end
